import Mathlib

/-!
Verification of the Expense-Tracker-Api record store (src/main.go).

Modelling notes:
- Go `int` is 64 bits wide here and its addition wraps. Two models are
  used side by side: `generateUniqueID`/`addExpense` carry out the id
  arithmetic on unbounded `Int` (adequate for statements that are
  insensitive to wrap-around, and for the amount sum, whose overflow the
  spec declares implementation-defined), while `wrap64`,
  `generateUniqueID64`, `addExpense64` and `runCreates64` make the
  two's-complement wrap of `maxID + 1` explicit, which decides the
  claims that quantify over hand-edited files with extreme ids.
- `time.Time` is modelled as an abstract integer timestamp `Timestamp`;
  each handler receives the ambient `time.Now()` value as a parameter.
- The durable file `expense.json` is modelled as `Disk := Option Json`:
  `none` when the file is absent, `some j` when it holds the JSON value
  `j` (byte-level whitespace of `MarshalIndent` is abstracted away).
- Each HTTP handler's load → mutate → save core is a function from the
  durable state to the new durable state paired with its response; the
  `http` routing, method checks and body/path decoding are transport glue
  outside the core and are not modelled.
- `json.Unmarshal` into `[]Expense` is modelled field-by-field: the top
  level must be an array of objects, unknown object fields are ignored,
  missing fields take the zero value, duplicate keys are last-wins, and
  a field of the wrong shape is a decoding error (`malformedStore`).
-/

namespace ExpenseApi

abbrev Timestamp := Int

/-- The `Expense` struct of main.go: ID, Description, Amount,
CreatedAt, UpdatedAt. -/
structure Expense where
  id : Int
  description : String
  amount : Int
  createdAt : Timestamp
  updatedAt : Timestamp
deriving DecidableEq, Repr

/-- JSON values, at the value level (no byte-level concrete syntax). -/
inductive Json where
  | num (n : Int)
  | str (s : String)
  | arr (elems : List Json)
  | obj (fields : List (String × Json))
deriving Repr

/-- Error kinds of the store core: `notFound` for Update/Delete on an
absent id, `malformedStore` when the durable document does not parse. -/
inductive StoreError where
  | notFound
  | malformedStore
deriving DecidableEq, Repr

/-- Value-level `json.Marshal` of one `Expense` (field layout of the
struct tags in main.go). -/
def encodeExpense (e : Expense) : Json :=
  .obj [("id", .num e.id),
        ("description", .str e.description),
        ("amount", .num e.amount),
        ("created_at", .num e.createdAt),
        ("updated_at", .num e.updatedAt)]

/-- Value-level `json.Marshal` of `[]Expense`. -/
def encodeExpenses (es : List Expense) : Json :=
  .arr (es.map encodeExpense)

/-- Field lookup in a JSON object; Go's `encoding/json` lets a later
duplicate key overwrite an earlier one, so the last binding wins. -/
def lookupField (fields : List (String × Json)) (key : String) : Option Json :=
  fields.foldl (fun acc p => if p.1 = key then some p.2 else acc) none

/-- Decode an integer-valued field: absent means the zero value, a
non-numeric value is a type error. -/
def fieldInt (fields : List (String × Json)) (key : String) :
    Except StoreError Int :=
  match lookupField fields key with
  | none => .ok 0
  | some (.num n) => .ok n
  | some _ => .error .malformedStore

/-- Decode a string-valued field: absent means the zero value `""`, a
non-string value is a type error. -/
def fieldStr (fields : List (String × Json)) (key : String) :
    Except StoreError String :=
  match lookupField fields key with
  | none => .ok ""
  | some (.str s) => .ok s
  | some _ => .error .malformedStore

/-- `json.Unmarshal` of one `Expense` object. -/
def decodeExpense (j : Json) : Except StoreError Expense :=
  match j with
  | .obj fields => do
      let i ← fieldInt fields "id"
      let d ← fieldStr fields "description"
      let a ← fieldInt fields "amount"
      let c ← fieldInt fields "created_at"
      let u ← fieldInt fields "updated_at"
      .ok ⟨i, d, a, c, u⟩
  | _ => .error .malformedStore

/-- `json.Unmarshal` of a JSON array, element by element. -/
def decodeExpenseList : List Json → Except StoreError (List Expense)
  | [] => .ok []
  | j :: rest => do
      let e ← decodeExpense j
      let es ← decodeExpenseList rest
      .ok (e :: es)

/-- `json.Unmarshal` of the whole document into `[]Expense`: the top
level must be a JSON array. -/
def decodeExpenses (j : Json) : Except StoreError (List Expense) :=
  match j with
  | .arr elems => decodeExpenseList elems
  | _ => .error .malformedStore

/-- The durable storage state: `none` when `expense.json` is absent. -/
abbrev Disk := Option Json

/-- `loadExpenses` of main.go: an absent file yields the empty
collection (not an error); otherwise the document is unmarshalled. -/
def loadExpenses : Disk → Except StoreError (List Expense)
  | none => .ok []
  | some j => decodeExpenses j

/-- `saveExpenses` of main.go: marshal the full collection and overwrite
the document in its entirety. -/
def saveExpenses (es : List Expense) : Disk :=
  some (encodeExpenses es)

/-- `generateUniqueID` of main.go: running maximum over the ids starting
at 0, raised only by strictly greater ids, plus one. -/
def generateUniqueID (expenses : List Expense) : Int :=
  (expenses.foldl (fun maxID e => if e.id > maxID then e.id else maxID) 0) + 1

/-- The field overwrites of `addExpenseHandler` before the append:
`expense.ID = generateUniqueID(expenses)`, `expense.CreatedAt = now`,
`expense.UpdatedAt = now` on the decoded payload. -/
def createdExpense (payload : Expense) (expenses : List Expense)
    (now : Timestamp) : Expense :=
  { payload with
      id := generateUniqueID expenses,
      createdAt := now,
      updatedAt := now }

/-- The core of `addExpenseHandler`: load, overwrite the payload's id
and both timestamps, append, save, return the new record. -/
def addExpense (d : Disk) (payload : Expense) (now : Timestamp) :
    Disk × Except StoreError Expense :=
  match loadExpenses d with
  | .error err => (d, .error err)
  | .ok expenses =>
    let expense := createdExpense payload expenses now
    (saveExpenses (expenses ++ [expense]), .ok expense)

/-- The core of `listExpensesHandler`: load and return the collection
verbatim; never writes. -/
def listExpenses (d : Disk) : Disk × Except StoreError (List Expense) :=
  (d, loadExpenses d)

/-- The core of `summaryExpensesHandler`: load, accumulate
`totalSum += expense.Amount` over the collection; never writes. -/
def summaryExpenses (d : Disk) : Disk × Except StoreError Int :=
  match loadExpenses d with
  | .error err => (d, .error err)
  | .ok expenses =>
    (d, .ok (expenses.foldl (fun totalSum e => totalSum + e.amount) 0))

/-- The in-place field updates of `updateExpenseHandler` on the matched
record: `Description`, `Amount` and `UpdatedAt` are replaced, `ID` and
`CreatedAt` are not touched. -/
def updatedRecord (e : Expense) (desc : String) (amt : Int)
    (now : Timestamp) : Expense :=
  { e with description := desc, amount := amt, updatedAt := now }

/-- The update loop of `updateExpenseHandler`: scan for the first record
with matching id; replace its description and amount, refresh
`updatedAt`, and stop. `none` when no record matches. -/
def updateFirst (id : Int) (desc : String) (amt : Int) (now : Timestamp) :
    List Expense → Option (List Expense)
  | [] => none
  | e :: rest =>
    if e.id = id then
      some (updatedRecord e desc amt now :: rest)
    else
      (updateFirst id desc amt now rest).map (e :: ·)

/-- The core of `updateExpenseHandler`: load, update the first matching
record in place, save, return the full updated collection; a missing id
is `notFound` and nothing is saved. -/
def updateExpense (d : Disk) (id : Int) (payload : Expense) (now : Timestamp) :
    Disk × Except StoreError (List Expense) :=
  match loadExpenses d with
  | .error err => (d, .error err)
  | .ok expenses =>
    match updateFirst id payload.description payload.amount now expenses with
    | none => (d, .error .notFound)
    | some expenses => (saveExpenses expenses, .ok expenses)

/-- The delete loop of `deleteExpenseHandler`: remove the first record
with matching id and stop. `none` when no record matches. -/
def deleteFirst (id : Int) : List Expense → Option (List Expense)
  | [] => none
  | e :: rest =>
    if e.id = id then some rest
    else (deleteFirst id rest).map (e :: ·)

/-- The core of `deleteExpenseHandler`: load, remove the first matching
record, save, signal success with no payload; a missing id is `notFound`
and nothing is saved. -/
def deleteExpense (d : Disk) (id : Int) : Disk × Except StoreError Unit :=
  match loadExpenses d with
  | .error err => (d, .error err)
  | .ok expenses =>
    match deleteFirst id expenses with
    | none => (d, .error .notFound)
    | some expenses => (saveExpenses expenses, .ok ())

/-- Two's-complement wrap-around of a 64-bit Go `int` addition result:
the value reduced into the interval from `-(2 ^ 63)` up to
`2 ^ 63 - 1`. -/
def wrap64 (n : Int) : Int :=
  (n + 2 ^ 63) % 2 ^ 64 - 2 ^ 63

/-- `generateUniqueID` of main.go with the Go `int` width made explicit:
the loop itself only compares and copies ids, but `maxID + 1` is a
64-bit addition, so it wraps to `-(2 ^ 63)` when `maxID` is the largest
`int64`. -/
def generateUniqueID64 (expenses : List Expense) : Int :=
  wrap64
    ((expenses.foldl (fun maxID e => if e.id > maxID then e.id else maxID) 0) + 1)

/-- `createdExpense` with the id computed under 64-bit arithmetic. -/
def createdExpense64 (payload : Expense) (expenses : List Expense)
    (now : Timestamp) : Expense :=
  { payload with
      id := generateUniqueID64 expenses,
      createdAt := now,
      updatedAt := now }

/-- The core of `addExpenseHandler` with the id computed under 64-bit
arithmetic. -/
def addExpense64 (d : Disk) (payload : Expense) (now : Timestamp) :
    Disk × Except StoreError Expense :=
  match loadExpenses d with
  | .error err => (d, .error err)
  | .ok expenses =>
    let expense := createdExpense64 payload expenses now
    (saveExpenses (expenses ++ [expense]), .ok expense)

/-- Run a sequence of Create calls (64-bit id arithmetic), each with its
payload and its ambient `time.Now()` value, threading the durable
state. -/
def runCreates64 (d : Disk) : List (Expense × Timestamp) → Disk
  | [] => d
  | (payload, t) :: rest => runCreates64 (addExpense64 d payload t).1 rest

end ExpenseApi

namespace ExpenseApi

theorem decodeExpense_encodeExpense (e : Expense) :
    decodeExpense (encodeExpense e) = .ok e := rfl

theorem decodeExpenseList_map_encode (l : List Expense) :
    decodeExpenseList (l.map encodeExpense) = .ok l := by
  induction l with
  | nil => rfl
  | cons e rest ih =>
    simp only [List.map_cons, decodeExpenseList, decodeExpense_encodeExpense, ih]
    rfl

theorem decodeExpenses_encodeExpenses (es : List Expense) :
    decodeExpenses (encodeExpenses es) = .ok es := by
  simp [decodeExpenses, encodeExpenses, decodeExpenseList_map_encode]

theorem loadExpenses_saveExpenses (es : List Expense) :
    loadExpenses (saveExpenses es) = .ok es := by
  simp [loadExpenses, saveExpenses, decodeExpenses_encodeExpenses]

theorem foldl_max_le (es : List Expense) (acc : Int) :
    acc ≤ es.foldl (fun maxID e => if e.id > maxID then e.id else maxID) acc := by
  induction es generalizing acc with
  | nil => simp
  | cons e rest ih =>
    simp only [List.foldl_cons]
    refine le_trans ?_ (ih _)
    split <;> omega

theorem mem_foldl_max (es : List Expense) (acc : Int) (e : Expense) (h : e ∈ es) :
    e.id ≤ es.foldl (fun maxID x => if x.id > maxID then x.id else maxID) acc := by
  induction es generalizing acc with
  | nil => cases h
  | cons x rest ih =>
    simp only [List.foldl_cons]
    rcases List.mem_cons.mp h with h | h
    · subst h
      refine le_trans ?_ (foldl_max_le rest _)
      split <;> omega
    · exact ih _ h

theorem generateUniqueID_gt (es : List Expense) :
    1 ≤ generateUniqueID es ∧ ∀ e ∈ es, e.id < generateUniqueID es := by
  constructor
  · have := foldl_max_le es 0
    unfold generateUniqueID
    omega
  · intro e he
    have := mem_foldl_max es 0 e he
    unfold generateUniqueID
    omega

theorem foldl_max_eq_max (es : List Expense) (acc : Int) :
    es.foldl (fun maxID e => if e.id > maxID then e.id else maxID) acc
      = (es.map (·.id)).foldl max acc := by
  induction es generalizing acc with
  | nil => rfl
  | cons e rest ih =>
    simp only [List.foldl_cons, List.map_cons, ih]
    congr 1
    rcases le_total e.id acc with h | h
    · rw [if_neg (by omega), max_eq_left h]
    · rcases eq_or_lt_of_le h with h | h
      · simp [h]
      · rw [if_pos h, max_eq_right (le_of_lt h)]

theorem addExpense_eq (d : Disk) (payload : Expense) (now : Timestamp)
    (es : List Expense) (h : loadExpenses d = .ok es) :
    addExpense d payload now
      = (saveExpenses (es ++ [createdExpense payload es now]),
         .ok (createdExpense payload es now)) := by
  simp [addExpense, h]

theorem updateFirst_split (id : Int) (desc : String) (amt : Int) (now : Timestamp)
    (es₁ es₂ : List Expense) (e : Expense)
    (hfirst : ∀ x ∈ es₁, x.id ≠ id) (hid : e.id = id) :
    updateFirst id desc amt now (es₁ ++ e :: es₂)
      = some (es₁ ++ updatedRecord e desc amt now :: es₂) := by
  induction es₁ with
  | nil => simp [updateFirst, hid]
  | cons x rest ih =>
    have hx : x.id ≠ id := hfirst x (by simp)
    simp [updateFirst, hx, ih (fun y hy => hfirst y (by simp [hy]))]

theorem updateFirst_none (id : Int) (desc : String) (amt : Int) (now : Timestamp)
    (es : List Expense) (h : ∀ x ∈ es, x.id ≠ id) :
    updateFirst id desc amt now es = none := by
  induction es with
  | nil => rfl
  | cons x rest ih =>
    have hx : x.id ≠ id := h x (by simp)
    simp [updateFirst, hx, ih (fun y hy => h y (by simp [hy]))]

theorem updateFirst_ids (id : Int) (desc : String) (amt : Int) (now : Timestamp) :
    ∀ es es', updateFirst id desc amt now es = some es' →
      es'.map (·.id) = es.map (·.id) := by
  intro es
  induction es with
  | nil => intro es' h; cases h
  | cons x rest ih =>
    intro es' h
    by_cases hx : x.id = id
    · simp [updateFirst, hx] at h
      subst h
      simp [updatedRecord]
    · simp [updateFirst, hx] at h
      obtain ⟨es'', h1, h2⟩ := h
      subst h2
      simp [ih es'' h1]

theorem deleteFirst_split (id : Int) (es₁ es₂ : List Expense) (e : Expense)
    (hfirst : ∀ x ∈ es₁, x.id ≠ id) (hid : e.id = id) :
    deleteFirst id (es₁ ++ e :: es₂) = some (es₁ ++ es₂) := by
  induction es₁ with
  | nil => simp [deleteFirst, hid]
  | cons x rest ih =>
    have hx : x.id ≠ id := hfirst x (by simp)
    simp [deleteFirst, hx, ih (fun y hy => hfirst y (by simp [hy]))]

theorem deleteFirst_none (id : Int) (es : List Expense)
    (h : ∀ x ∈ es, x.id ≠ id) :
    deleteFirst id es = none := by
  induction es with
  | nil => rfl
  | cons x rest ih =>
    have hx : x.id ≠ id := h x (by simp)
    simp [deleteFirst, hx, ih (fun y hy => h y (by simp [hy]))]

theorem deleteFirst_sublist (id : Int) :
    ∀ es es', deleteFirst id es = some es' → es'.Sublist es := by
  intro es
  induction es with
  | nil => intro es' h; cases h
  | cons x rest ih =>
    intro es' h
    by_cases hx : x.id = id
    · simp [deleteFirst, hx] at h
      subst h
      exact List.sublist_cons_self x rest
    · simp [deleteFirst, hx] at h
      obtain ⟨es'', h1, h2⟩ := h
      subst h2
      exact (ih es'' h1).cons₂ x

theorem foldl_amount_sum (es : List Expense) (acc : Int) :
    es.foldl (fun totalSum e => totalSum + e.amount) acc
      = acc + (es.map (·.amount)).sum := by
  induction es generalizing acc with
  | nil => simp
  | cons e rest ih =>
    simp only [List.foldl_cons, List.map_cons, List.sum_cons, ih]
    ring

theorem create_preserves_nodup (es : List Expense) (payload : Expense)
    (now : Timestamp) (h : (es.map (·.id)).Nodup) :
    (((es ++ [createdExpense payload es now]).map (·.id))).Nodup := by
  simp only [List.map_append, List.map_cons, List.map_nil]
  rw [List.nodup_append]
  refine ⟨h, List.nodup_singleton _, ?_⟩
  intro a ha hb
  obtain ⟨e, he, hae⟩ := List.mem_map.mp ha
  have := (generateUniqueID_gt es).2 e he
  simp [createdExpense] at hb
  omega

end ExpenseApi

namespace ExpenseApi

/-- Claim C1: Create assigns the new record the identifier
`1 + max(ids of the loaded collection, default 0)`; on an empty
collection Create assigns id 1; and in the scenario Create A (id 1),
Create B (id 2), Delete 2, Create C, record C gets id 2 again. -/
theorem spec_C1 :
    (∀ es, generateUniqueID es = 1 + (es.map (·.id)).foldl max 0)
    ∧ (∀ payload now, ((addExpense none payload now).2).map (·.id) = .ok 1)
    ∧ (∀ pA pB pC tA tB tC,
        ((addExpense none pA tA).2).map (·.id) = .ok 1
        ∧ ((addExpense (addExpense none pA tA).1 pB tB).2).map (·.id) = .ok 2
        ∧ (deleteExpense (addExpense (addExpense none pA tA).1 pB tB).1 2).2
            = .ok ()
        ∧ ((addExpense
              (deleteExpense (addExpense (addExpense none pA tA).1 pB tB).1 2).1
              pC tC).2).map (·.id) = .ok 2) := by
  refine ⟨?_, ?_, ?_⟩
  · intro es
    unfold generateUniqueID
    rw [foldl_max_eq_max]
    omega
  · intro payload now
    rfl
  · intro pA pB pC tA tB tC
    exact ⟨rfl, rfl, rfl, rfl⟩

/-- Claim C7: an absent durable document loads as the empty collection
without error, and absence of the file is observationally equivalent to
an empty collection for every operation: each operation produces the
same response, and a resulting durable state that loads to the same
collection, on the absent file as on an explicitly saved empty
collection. -/
theorem spec_C7 :
    loadExpenses none = .ok []
    ∧ (listExpenses none).2 = (listExpenses (saveExpenses [])).2
    ∧ (summaryExpenses none).2 = (summaryExpenses (saveExpenses [])).2
    ∧ (∀ payload now,
        addExpense none payload now = addExpense (saveExpenses []) payload now)
    ∧ (∀ id payload now,
        (updateExpense none id payload now).2
            = (updateExpense (saveExpenses []) id payload now).2
        ∧ loadExpenses (updateExpense none id payload now).1
            = loadExpenses (updateExpense (saveExpenses []) id payload now).1)
    ∧ (∀ id,
        (deleteExpense none id).2 = (deleteExpense (saveExpenses []) id).2
        ∧ loadExpenses (deleteExpense none id).1
            = loadExpenses (deleteExpense (saveExpenses []) id).1) := by
  refine ⟨rfl, rfl, rfl, ?_, ?_, ?_⟩
  · intro payload now
    rfl
  · intro id payload now
    exact ⟨rfl, rfl⟩
  · intro id
    exact ⟨rfl, rfl⟩

/-- Claim C8: the id of a created record is never client-supplied:
whatever id and timestamps the payload carries, Create returns the
payload with its id overwritten by `generateUniqueID` of the loaded
collection (so the id is the same for any two payloads) and with both
`created_at` and `updated_at` set to now. -/
theorem spec_C8 (d : Disk) (payload payload' : Expense) (now : Timestamp)
    (es : List Expense) (h : loadExpenses d = .ok es) :
    (addExpense d payload now).2 = .ok (createdExpense payload es now)
    ∧ (createdExpense payload es now).id = generateUniqueID es
    ∧ (createdExpense payload es now).createdAt = now
    ∧ (createdExpense payload es now).updatedAt = now
    ∧ ((addExpense d payload now).2).map (·.id)
        = ((addExpense d payload' now).2).map (·.id) := by
  rw [addExpense_eq d payload now es h, addExpense_eq d payload' now es h]
  exact ⟨rfl, rfl, rfl, rfl, rfl⟩

/-- Witness for C8 at a concrete store and payload. -/
theorem spec_C8_witness :
    (addExpense (saveExpenses []) ⟨99, "coffee", 350, 7, 7⟩ 5).2
        = .ok (createdExpense ⟨99, "coffee", 350, 7, 7⟩ [] 5)
    ∧ (createdExpense ⟨99, "coffee", 350, 7, 7⟩ [] 5).id = generateUniqueID []
    ∧ (createdExpense ⟨99, "coffee", 350, 7, 7⟩ [] 5).createdAt = 5
    ∧ (createdExpense ⟨99, "coffee", 350, 7, 7⟩ [] 5).updatedAt = 5
    ∧ ((addExpense (saveExpenses []) ⟨99, "coffee", 350, 7, 7⟩ 5).2).map (·.id)
        = ((addExpense (saveExpenses []) ⟨0, "tea", 1, 0, 0⟩ 5).2).map (·.id) :=
  spec_C8 (saveExpenses []) ⟨99, "coffee", 350, 7, 7⟩ ⟨0, "tea", 1, 0, 0⟩ 5 []
    rfl

/-- Claim C9: for every well-formed durable document (one that loads as
some collection), saving the loaded collection produces a document that
loads back to the same records with the same field values in the same
order. -/
theorem spec_C9 (d : Disk) (es : List Expense)
    (h : loadExpenses d = .ok es) :
    loadExpenses (saveExpenses es) = .ok es :=
  loadExpenses_saveExpenses es

/-- Witness for C9 at a concrete one-record document. -/
theorem spec_C9_witness :
    loadExpenses (saveExpenses [⟨1, "coffee", 350, 2, 3⟩]) =
      .ok [⟨1, "coffee", 350, 2, 3⟩] :=
  spec_C9 (saveExpenses [⟨1, "coffee", 350, 2, 3⟩]) [⟨1, "coffee", 350, 2, 3⟩]
    rfl

end ExpenseApi

namespace ExpenseApi

/-- Claim C3: Update and Delete on an id absent from the loaded
collection fail with NotFound and do not save: the durable state after
the failed call is exactly the state before it. -/
theorem spec_C3 (d : Disk) (id : Int) (payload : Expense) (now : Timestamp)
    (es : List Expense) (h : loadExpenses d = .ok es)
    (habs : ∀ e ∈ es, e.id ≠ id) :
    updateExpense d id payload now = (d, .error .notFound)
    ∧ deleteExpense d id = (d, .error .notFound) := by
  constructor
  · simp [updateExpense, h,
      updateFirst_none id payload.description payload.amount now es habs]
  · simp [deleteExpense, h, deleteFirst_none id es habs]

/-- Witness for C3: updating and deleting id 2 in a store holding only
id 1. -/
theorem spec_C3_witness :
    updateExpense (saveExpenses [⟨1, "a", 2, 0, 0⟩]) 2 ⟨0, "b", 3, 0, 0⟩ 4
        = (saveExpenses [⟨1, "a", 2, 0, 0⟩], .error .notFound)
    ∧ deleteExpense (saveExpenses [⟨1, "a", 2, 0, 0⟩]) 2
        = (saveExpenses [⟨1, "a", 2, 0, 0⟩], .error .notFound) :=
  spec_C3 (saveExpenses [⟨1, "a", 2, 0, 0⟩]) 2 ⟨0, "b", 3, 0, 0⟩ 4
    [⟨1, "a", 2, 0, 0⟩] rfl (by simp)

/-- Claim C4: Update on a present id replaces exactly the first matching
record's description and amount, refreshes its `updated_at` to now
(never earlier than the previous `updated_at` when now is not in the
past), leaves its id and `created_at` and every other record and the
order unchanged, saves, and returns the full updated collection. -/
theorem spec_C4 (d : Disk) (id : Int) (payload : Expense) (now : Timestamp)
    (es₁ es₂ : List Expense) (e : Expense)
    (h : loadExpenses d = .ok (es₁ ++ e :: es₂))
    (hfirst : ∀ x ∈ es₁, x.id ≠ id) (hid : e.id = id)
    (hnow : e.updatedAt ≤ now) :
    updateExpense d id payload now
        = (saveExpenses
            (es₁ ++ updatedRecord e payload.description payload.amount now :: es₂),
           .ok (es₁ ++ updatedRecord e payload.description payload.amount now :: es₂))
    ∧ (updatedRecord e payload.description payload.amount now).id = e.id
    ∧ (updatedRecord e payload.description payload.amount now).createdAt
        = e.createdAt
    ∧ (updatedRecord e payload.description payload.amount now).description
        = payload.description
    ∧ (updatedRecord e payload.description payload.amount now).amount
        = payload.amount
    ∧ (updatedRecord e payload.description payload.amount now).updatedAt = now
    ∧ e.updatedAt ≤ (updatedRecord e payload.description payload.amount now).updatedAt
    ∧ loadExpenses (updateExpense d id payload now).1
        = .ok (es₁ ++ updatedRecord e payload.description payload.amount now :: es₂) := by
  have hu := updateFirst_split id payload.description payload.amount now
    es₁ es₂ e hfirst hid
  refine ⟨by simp [updateExpense, h, hu], rfl, rfl, rfl, rfl, rfl, hnow, ?_⟩
  simp [updateExpense, h, hu, loadExpenses_saveExpenses]

/-- Witness for C4: updating id 1 in a two-record store. -/
theorem spec_C4_witness :
    updateExpense (saveExpenses [⟨1, "a", 2, 0, 0⟩, ⟨2, "b", 3, 0, 0⟩]) 1
        ⟨0, "tea", 300, 9, 9⟩ 4
        = (saveExpenses
            ([] ++ updatedRecord ⟨1, "a", 2, 0, 0⟩ "tea" 300 4 :: [⟨2, "b", 3, 0, 0⟩]),
           .ok ([] ++ updatedRecord ⟨1, "a", 2, 0, 0⟩ "tea" 300 4 :: [⟨2, "b", 3, 0, 0⟩]))
    ∧ (updatedRecord ⟨1, "a", 2, 0, 0⟩ "tea" 300 4).id = (⟨1, "a", 2, 0, 0⟩ : Expense).id
    ∧ (updatedRecord ⟨1, "a", 2, 0, 0⟩ "tea" 300 4).createdAt
        = (⟨1, "a", 2, 0, 0⟩ : Expense).createdAt
    ∧ (updatedRecord ⟨1, "a", 2, 0, 0⟩ "tea" 300 4).description = "tea"
    ∧ (updatedRecord ⟨1, "a", 2, 0, 0⟩ "tea" 300 4).amount = 300
    ∧ (updatedRecord ⟨1, "a", 2, 0, 0⟩ "tea" 300 4).updatedAt = 4
    ∧ (⟨1, "a", 2, 0, 0⟩ : Expense).updatedAt
        ≤ (updatedRecord ⟨1, "a", 2, 0, 0⟩ "tea" 300 4).updatedAt
    ∧ loadExpenses (updateExpense (saveExpenses [⟨1, "a", 2, 0, 0⟩, ⟨2, "b", 3, 0, 0⟩]) 1
          ⟨0, "tea", 300, 9, 9⟩ 4).1
        = .ok ([] ++ updatedRecord ⟨1, "a", 2, 0, 0⟩ "tea" 300 4 :: [⟨2, "b", 3, 0, 0⟩]) :=
  spec_C4 (saveExpenses [⟨1, "a", 2, 0, 0⟩, ⟨2, "b", 3, 0, 0⟩]) 1
    ⟨0, "tea", 300, 9, 9⟩ 4 [] [⟨2, "b", 3, 0, 0⟩] ⟨1, "a", 2, 0, 0⟩
    rfl (by simp) rfl (by simp)

/-- Claim C5: Delete on a present id (in a collection of pairwise
distinct ids) succeeds, saves exactly the original collection with the
matching record removed, keeping every other record and their relative
order, and the result holds no record with that id. -/
theorem spec_C5 (d : Disk) (id : Int) (es₁ es₂ : List Expense) (e : Expense)
    (h : loadExpenses d = .ok (es₁ ++ e :: es₂))
    (hnodup : ((((es₁ ++ e :: es₂)).map (·.id))).Nodup)
    (hid : e.id = id) :
    deleteExpense d id = (saveExpenses (es₁ ++ es₂), .ok ())
    ∧ loadExpenses (deleteExpense d id).1 = .ok (es₁ ++ es₂)
    ∧ ∀ x ∈ es₁ ++ es₂, x.id ≠ id := by
  simp only [List.map_append, List.map_cons] at hnodup
  rw [List.nodup_append] at hnodup
  obtain ⟨h1, h2, hdisj⟩ := hnodup
  have hfirst : ∀ x ∈ es₁, x.id ≠ id := by
    intro x hx hxe
    exact hdisj (List.mem_map_of_mem _ hx) (by simp [hxe, hid])
  have hrest : ∀ x ∈ es₂, x.id ≠ id := by
    intro x hx hxe
    rw [List.nodup_cons] at h2
    exact h2.1 (hid ▸ hxe ▸ List.mem_map_of_mem _ hx)
  have hd := deleteFirst_split id es₁ es₂ e hfirst hid
  refine ⟨by simp [deleteExpense, h, hd], ?_, ?_⟩
  · simp [deleteExpense, h, hd, loadExpenses_saveExpenses]
  · intro x hx
    rcases List.mem_append.mp hx with hx | hx
    · exact hfirst x hx
    · exact hrest x hx

/-- Witness for C5: deleting id 1 from a two-record store. -/
theorem spec_C5_witness :
    deleteExpense (saveExpenses [⟨1, "a", 2, 0, 0⟩, ⟨2, "b", 3, 0, 0⟩]) 1
        = (saveExpenses ([] ++ [⟨2, "b", 3, 0, 0⟩]), .ok ())
    ∧ loadExpenses (deleteExpense (saveExpenses [⟨1, "a", 2, 0, 0⟩, ⟨2, "b", 3, 0, 0⟩]) 1).1
        = .ok ([] ++ [⟨2, "b", 3, 0, 0⟩])
    ∧ ∀ x ∈ ([] ++ [(⟨2, "b", 3, 0, 0⟩ : Expense)]), x.id ≠ 1 :=
  spec_C5 (saveExpenses [⟨1, "a", 2, 0, 0⟩, ⟨2, "b", 3, 0, 0⟩]) 1
    [] [⟨2, "b", 3, 0, 0⟩] ⟨1, "a", 2, 0, 0⟩ rfl (by simp) rfl

/-- Claim C6: Summarize never writes to the durable state, and on any
loadable collection returns exactly the arithmetic sum of the amounts of
the collection List returns; on an empty collection it returns 0. -/
theorem spec_C6 :
    (∀ d, (summaryExpenses d).1 = d)
    ∧ (∀ d es, loadExpenses d = .ok es →
        (summaryExpenses d).2 = .ok ((((es.map (·.amount)))).sum)
        ∧ (listExpenses d).2 = .ok es)
    ∧ (∀ d, loadExpenses d = .ok [] → (summaryExpenses d).2 = .ok 0) := by
  refine ⟨?_, ?_, ?_⟩
  · intro d
    rcases h : loadExpenses d with err | es <;> simp [summaryExpenses, h]
  · intro d es h
    constructor
    · simp [summaryExpenses, h, foldl_amount_sum]
    · simp [listExpenses, h]
  · intro d h
    simp [summaryExpenses, h]

/-- Witness for C6 at a concrete two-record store and the empty store. -/
theorem spec_C6_witness :
    ((summaryExpenses (saveExpenses [⟨1, "a", 2, 0, 0⟩, ⟨2, "b", 3, 0, 0⟩])).2
          = .ok ((([⟨1, "a", 2, 0, 0⟩, ⟨2, "b", 3, 0, 0⟩].map (fun e => Expense.amount e))).sum)
      ∧ (listExpenses (saveExpenses [⟨1, "a", 2, 0, 0⟩, ⟨2, "b", 3, 0, 0⟩])).2
          = .ok [⟨1, "a", 2, 0, 0⟩, ⟨2, "b", 3, 0, 0⟩])
    ∧ (summaryExpenses none).2 = .ok 0 :=
  ⟨spec_C6.2.1 (saveExpenses [⟨1, "a", 2, 0, 0⟩, ⟨2, "b", 3, 0, 0⟩])
      [⟨1, "a", 2, 0, 0⟩, ⟨2, "b", 3, 0, 0⟩] rfl,
   spec_C6.2.2 none rfl⟩

end ExpenseApi

namespace ExpenseApi

/-- Witness for C1: the id-reuse scenario at concrete payloads and
times. -/
theorem spec_C1_witness :
    ((addExpense none ⟨0, "A", 10, 0, 0⟩ 1).2).map (·.id) = .ok 1
    ∧ ((addExpense (addExpense none ⟨0, "A", 10, 0, 0⟩ 1).1 ⟨0, "B", 20, 0, 0⟩ 2).2).map (·.id)
        = .ok 2
    ∧ (deleteExpense
        (addExpense (addExpense none ⟨0, "A", 10, 0, 0⟩ 1).1 ⟨0, "B", 20, 0, 0⟩ 2).1 2).2
        = .ok ()
    ∧ ((addExpense
          (deleteExpense
            (addExpense (addExpense none ⟨0, "A", 10, 0, 0⟩ 1).1 ⟨0, "B", 20, 0, 0⟩ 2).1
            2).1
          ⟨0, "C", 30, 0, 0⟩ 4).2).map (·.id) = .ok 2 :=
  spec_C1.2.2 ⟨0, "A", 10, 0, 0⟩ ⟨0, "B", 20, 0, 0⟩ ⟨0, "C", 30, 0, 0⟩ 1 2 4

/-- Witness for C7: Update on the absent file at a concrete id and
payload behaves as on an explicitly saved empty collection. -/
theorem spec_C7_witness :
    (updateExpense none 1 ⟨0, "b", 3, 0, 0⟩ 4).2
        = (updateExpense (saveExpenses []) 1 ⟨0, "b", 3, 0, 0⟩ 4).2
    ∧ loadExpenses (updateExpense none 1 ⟨0, "b", 3, 0, 0⟩ 4).1
        = loadExpenses (updateExpense (saveExpenses []) 1 ⟨0, "b", 3, 0, 0⟩ 4).1 :=
  spec_C7.2.2.2.2.1 1 ⟨0, "b", 3, 0, 0⟩ 4

end ExpenseApi

namespace ExpenseApi

theorem wrap64_eq_self (n : Int) (h1 : -(2 ^ 63) ≤ n) (h2 : n < 2 ^ 63) :
    wrap64 n = n := by
  unfold wrap64
  rw [Int.emod_eq_of_lt (by omega) (by omega)]
  omega

theorem foldl_max_le_of : ∀ (es : List Expense) (acc k : Int), acc ≤ k →
    (∀ e ∈ es, e.id ≤ k) →
    es.foldl (fun maxID e => if e.id > maxID then e.id else maxID) acc ≤ k := by
  intro es
  induction es with
  | nil =>
    intro acc k h _
    simpa using h
  | cons x rest ih =>
    intro acc k hacc hb
    simp only [List.foldl_cons]
    refine ih _ k ?_ (fun e he => hb e (by simp [he]))
    have hx : x.id ≤ k := hb x (by simp)
    split <;> omega

theorem generateUniqueID_le (es : List Expense) (k : Int)
    (h0 : 0 ≤ k) (hb : ∀ e ∈ es, e.id ≤ k) : generateUniqueID es ≤ k + 1 := by
  have := foldl_max_le_of es 0 k h0 hb
  unfold generateUniqueID
  omega

theorem generateUniqueID64_eq (es : List Expense)
    (hb : ∀ e ∈ es, e.id ≤ 2 ^ 63 - 2) :
    generateUniqueID64 es = generateUniqueID es := by
  have h0 := foldl_max_le es 0
  have h1 := foldl_max_le_of es 0 (2 ^ 63 - 2) (by omega) hb
  unfold generateUniqueID64 generateUniqueID
  exact wrap64_eq_self _ (by omega) (by omega)

theorem createdExpense64_eq (payload : Expense) (es : List Expense)
    (now : Timestamp) (hb : ∀ e ∈ es, e.id ≤ 2 ^ 63 - 2) :
    createdExpense64 payload es now = createdExpense payload es now := by
  unfold createdExpense64 createdExpense
  rw [generateUniqueID64_eq es hb]

theorem addExpense64_eq (d : Disk) (payload : Expense) (now : Timestamp)
    (es : List Expense) (h : loadExpenses d = .ok es) :
    addExpense64 d payload now
      = (saveExpenses (es ++ [createdExpense64 payload es now]),
         .ok (createdExpense64 payload es now)) := by
  simp [addExpense64, h]

theorem runCreates64_nodup (reqs : List (Expense × Timestamp)) :
    ∀ (d : Disk) (es : List Expense) (k : Int),
      loadExpenses d = .ok es → ((es.map (·.id))).Nodup →
      (∀ e ∈ es, e.id ≤ k) → 0 ≤ k →
      k + (reqs.length : Int) ≤ 2 ^ 63 - 1 →
      ∃ es', loadExpenses (runCreates64 d reqs) = .ok es'
        ∧ ((es'.map (·.id))).Nodup := by
  induction reqs with
  | nil =>
    intro d es k h hn _ _ _
    exact ⟨es, h, hn⟩
  | cons pt rest ih =>
    intro d es k h hn hb hk0 hkb
    obtain ⟨payload, t⟩ := pt
    have hrest0 : (0:Int) ≤ (rest.length : Int) := Int.natCast_nonneg _
    have hklt : k ≤ 2 ^ 63 - 2 := by
      simp only [List.length_cons, Nat.cast_add, Nat.cast_one] at hkb
      omega
    have hb2 : ∀ e ∈ es, e.id ≤ 2 ^ 63 - 2 := fun e he => le_trans (hb e he) hklt
    rw [runCreates64, addExpense64_eq d payload t es h,
        createdExpense64_eq payload es t hb2]
    refine ih _ (es ++ [createdExpense payload es t]) (k + 1)
      (loadExpenses_saveExpenses _) (create_preserves_nodup es payload t hn)
      ?_ (by omega) ?_
    · intro e he
      rcases List.mem_append.mp he with he | he
      · exact le_trans (hb e he) (by omega)
      · simp only [List.mem_singleton] at he
        subst he
        have := generateUniqueID_le es k hk0 hb
        simpa [createdExpense] using this
    · simp only [List.length_cons, Nat.cast_add, Nat.cast_one] at hkb
      omega

/-- Claim C2 (amended): Update and Delete preserve pairwise-distinct ids
on any collection; Create preserves them provided every id is below
`2 ^ 63 - 1`, so that the Go `int` computation `maxID + 1` does not
wrap; and every sequence of fewer than `2 ^ 63` Create calls starting
from the empty store leaves a collection of pairwise-distinct ids. -/
theorem spec_C2 :
    (∀ d payload now es, loadExpenses d = .ok es → ((es.map (·.id))).Nodup →
        (∀ e ∈ es, e.id < 2 ^ 63 - 1) →
      loadExpenses (addExpense64 d payload now).1
          = .ok (es ++ [createdExpense64 payload es now])
      ∧ (((es ++ [createdExpense64 payload es now]).map (·.id))).Nodup)
    ∧ (∀ d id payload now es es'',
        loadExpenses d = .ok es → ((es.map (·.id))).Nodup →
        loadExpenses (updateExpense d id payload now).1 = .ok es'' →
        ((es''.map (·.id))).Nodup)
    ∧ (∀ d id es es'',
        loadExpenses d = .ok es → ((es.map (·.id))).Nodup →
        loadExpenses (deleteExpense d id).1 = .ok es'' →
        ((es''.map (·.id))).Nodup)
    ∧ (∀ reqs : List (Expense × Timestamp), (reqs.length : Int) < 2 ^ 63 →
        ∃ es', loadExpenses (runCreates64 none reqs) = .ok es'
          ∧ ((es'.map (·.id))).Nodup) := by
  refine ⟨?_, ?_, ?_, ?_⟩
  · intro d payload now es h hn hb
    have hb2 : ∀ e ∈ es, e.id ≤ 2 ^ 63 - 2 := by
      intro e he
      have := hb e he
      omega
    rw [addExpense64_eq d payload now es h, createdExpense64_eq payload es now hb2]
    exact ⟨loadExpenses_saveExpenses _, create_preserves_nodup es payload now hn⟩
  · intro d id payload now es es'' h hn h2
    rcases hu : updateFirst id payload.description payload.amount now es with _ | es'
    · simp [updateExpense, h, hu] at h2
      subst h2
      exact hn
    · simp [updateExpense, h, hu, loadExpenses_saveExpenses] at h2
      rw [← h2, updateFirst_ids id payload.description payload.amount now es es' hu]
      exact hn
  · intro d id es es'' h hn h2
    rcases hu : deleteFirst id es with _ | es'
    · simp [deleteExpense, h, hu] at h2
      subst h2
      exact hn
    · simp [deleteExpense, h, hu, loadExpenses_saveExpenses] at h2
      rw [← h2]
      exact hn.sublist ((deleteFirst_sublist id es es' hu).map (·.id))
  · intro reqs hlen
    exact runCreates64_nodup reqs none [] 0 rfl (by simp) (by simp) le_rfl
      (by omega)

/-- Counterexample to C2 as stated: the loadable hand-edited collection
with the distinct ids `-(2 ^ 63)` and `2 ^ 63 - 1` (the extreme values
of Go `int64`), on which Create wraps `maxID + 1` to `-(2 ^ 63)` and
produces a duplicate id. -/
theorem spec_C2_counterexample :
    ((([⟨-(2 ^ 63), "a", 1, 0, 0⟩, ⟨2 ^ 63 - 1, "b", 2, 0, 0⟩] : List Expense)).map
        (·.id)).Nodup
    ∧ loadExpenses (saveExpenses [⟨-(2 ^ 63), "a", 1, 0, 0⟩, ⟨2 ^ 63 - 1, "b", 2, 0, 0⟩])
        = .ok [⟨-(2 ^ 63), "a", 1, 0, 0⟩, ⟨2 ^ 63 - 1, "b", 2, 0, 0⟩]
    ∧ (addExpense64
          (saveExpenses [⟨-(2 ^ 63), "a", 1, 0, 0⟩, ⟨2 ^ 63 - 1, "b", 2, 0, 0⟩])
          ⟨0, "c", 3, 0, 0⟩ 0).2
        = .ok ⟨-(2 ^ 63), "c", 3, 0, 0⟩
    ∧ loadExpenses (addExpense64
          (saveExpenses [⟨-(2 ^ 63), "a", 1, 0, 0⟩, ⟨2 ^ 63 - 1, "b", 2, 0, 0⟩])
          ⟨0, "c", 3, 0, 0⟩ 0).1
        = .ok [⟨-(2 ^ 63), "a", 1, 0, 0⟩, ⟨2 ^ 63 - 1, "b", 2, 0, 0⟩,
               ⟨-(2 ^ 63), "c", 3, 0, 0⟩]
    ∧ ¬ ((([⟨-(2 ^ 63), "a", 1, 0, 0⟩, ⟨2 ^ 63 - 1, "b", 2, 0, 0⟩,
            ⟨-(2 ^ 63), "c", 3, 0, 0⟩] : List Expense)).map (·.id)).Nodup := by
  exact ⟨by decide, rfl, rfl, rfl, by decide⟩

/-- Witness for C2: each conjunct applied at a concrete store. -/
theorem spec_C2_witness :
    (loadExpenses (addExpense64 (saveExpenses [⟨1, "a", 2, 0, 0⟩]) ⟨0, "b", 3, 0, 0⟩ 4).1
        = .ok ([⟨1, "a", 2, 0, 0⟩] ++ [createdExpense64 ⟨0, "b", 3, 0, 0⟩ [⟨1, "a", 2, 0, 0⟩] 4])
      ∧ ((((([(⟨1, "a", 2, 0, 0⟩ : Expense)] : List Expense)
            ++ [createdExpense64 ⟨0, "b", 3, 0, 0⟩ [⟨1, "a", 2, 0, 0⟩] 4]).map (·.id))).Nodup))
    ∧ (([updatedRecord ⟨1, "a", 2, 0, 0⟩ "b" 3 4].map (·.id))).Nodup
    ∧ (([] : List Expense).map (·.id)).Nodup
    ∧ (∃ es', loadExpenses (runCreates64 none [(⟨0, "x", 1, 0, 0⟩, 1)]) = .ok es'
        ∧ ((es'.map (·.id))).Nodup) :=
  ⟨spec_C2.1 (saveExpenses [⟨1, "a", 2, 0, 0⟩]) ⟨0, "b", 3, 0, 0⟩ 4
      [⟨1, "a", 2, 0, 0⟩] rfl (by simp) (by decide),
   spec_C2.2.1 (saveExpenses [⟨1, "a", 2, 0, 0⟩]) 1 ⟨0, "b", 3, 0, 0⟩ 4
      [⟨1, "a", 2, 0, 0⟩] [updatedRecord ⟨1, "a", 2, 0, 0⟩ "b" 3 4] rfl (by simp) rfl,
   spec_C2.2.2.1 (saveExpenses [⟨1, "a", 2, 0, 0⟩]) 1 [⟨1, "a", 2, 0, 0⟩] [] rfl
      (by simp) rfl,
   spec_C2.2.2.2 [(⟨0, "x", 1, 0, 0⟩, 1)] (by decide)⟩

/-- Claim C10 (amended): for every collection, including ones holding
zero or negative ids, whose ids are all below `2 ^ 63 - 1` (so the Go
`int` computation `maxID + 1` does not wrap), `generateUniqueID` returns
a value that is at least 1 and strictly greater than every id in the
collection; at a maximal id of `2 ^ 63 - 1` the addition wraps instead. -/
theorem spec_C10 (es : List Expense) (hb : ∀ e ∈ es, e.id < 2 ^ 63 - 1) :
    1 ≤ generateUniqueID64 es ∧ ∀ e ∈ es, e.id < generateUniqueID64 es := by
  have hb2 : ∀ e ∈ es, e.id ≤ 2 ^ 63 - 2 := by
    intro e he
    have := hb e he
    omega
  rw [generateUniqueID64_eq es hb2]
  exact generateUniqueID_gt es

/-- Counterexample to C10 as stated: on the hand-edited one-record
collection whose id is the largest `int64`, `maxID + 1` wraps to
`-(2 ^ 63)`, which is neither at least 1 nor greater than the id. -/
theorem spec_C10_counterexample :
    generateUniqueID64 [⟨2 ^ 63 - 1, "edited", 0, 0, 0⟩] = -(2 ^ 63)
    ∧ ¬ (1 ≤ generateUniqueID64 [⟨2 ^ 63 - 1, "edited", 0, 0, 0⟩]
         ∧ ∀ e ∈ ([⟨2 ^ 63 - 1, "edited", 0, 0, 0⟩] : List Expense),
             e.id < generateUniqueID64 [⟨2 ^ 63 - 1, "edited", 0, 0, 0⟩]) := by
  exact ⟨rfl, by decide⟩

/-- Witness for C10 on a hand-editable collection holding a zero and a
negative id, both below the wrap threshold. -/
theorem spec_C10_witness :
    1 ≤ generateUniqueID64 [⟨-7, "n", 1, 0, 0⟩, ⟨0, "z", 2, 0, 0⟩]
    ∧ ∀ e ∈ ([⟨-7, "n", 1, 0, 0⟩, ⟨0, "z", 2, 0, 0⟩] : List Expense),
        e.id < generateUniqueID64 [⟨-7, "n", 1, 0, 0⟩, ⟨0, "z", 2, 0, 0⟩] :=
  spec_C10 [⟨-7, "n", 1, 0, 0⟩, ⟨0, "z", 2, 0, 0⟩] (by decide)

end ExpenseApi
